import Mathlib

/-!
Verification of the tabular normalizer in `src/twse_openapi.py`
(class `TwseOpenApi`).

Shallow embedding notes:
* A pandas cell is modelled by `Cell`: `null` covers `None` / `NaN` /
  `pd.NA` / `NaT`; `str` covers Python strings; `date y m d` covers a
  `pd.Timestamp` at midnight; `num q` covers an `int64`/`float64` value
  (exact, as a rational — the only numeric strings the claims exercise
  are exact decimals).
* Python strings are modelled through their character lists (`String.data`);
  `len`, slicing and regex digit tests are over those lists.  The digit
  classes are modelled as ASCII digits (the spec fixes the encoding to
  ASCII digits; Python's `\d` and `int()` would additionally accept other
  Unicode digits, which no claim exercises).
* `int()` is modelled on an optional sign followed by digits (surrounding
  whitespace and underscore separators are not modelled).
* `pd.to_numeric` string acceptance is modelled on optional sign, integer
  digits and an optional fractional part (exponents, `inf`, `nan` and
  surrounding whitespace are not modelled; no claim exercises them).
* Exceptions escaping a function are modelled with `Except Unit`.
-/

/-- A cell of a pandas `Series`/`DataFrame` as used by `twse_openapi.py`. -/
inductive Cell where
  | null : Cell
  | str : String → Cell
  | date : Nat → Nat → Nat → Cell
  | num : Rat → Cell
deriving DecidableEq, Repr

/-- Value of a list of ASCII digit characters, most significant first
(the number denoted by a digit string). -/
def digitsVal (l : List Char) : Nat :=
  l.foldl (fun a c => 10 * a + (c.toNat - 48)) 0

/-- Parse a nonempty all-digit character list as a natural number;
models `int()` on an unsigned digit string. -/
def parseNatDigits (l : List Char) : Option Nat :=
  if l ≠ [] ∧ l.all Char.isDigit then some (digitsVal l) else none

/-- Models Python `int()` on a string: optional sign followed by digits
(whitespace/underscores not modelled). -/
def pythonIntChars (l : List Char) : Option Int :=
  if l.head? = some '-' then (parseNatDigits l.tail).map (fun n => -(n : Int))
  else if l.head? = some '+' then (parseNatDigits l.tail).map (fun n => (n : Int))
  else (parseNatDigits l).map (fun n => (n : Int))

/-- Gregorian leap-year rule, as used by `datetime`/pandas. -/
def isLeapYear (y : Nat) : Bool :=
  (y % 4 == 0 && y % 100 != 0) || y % 400 == 0

/-- Number of days of month `m` in year `y`. -/
def daysInMonth (y m : Nat) : Nat :=
  if m == 2 then (if isLeapYear y then 29 else 28)
  else if m == 4 || m == 6 || m == 9 || m == 11 then 30
  else 31

/-- `(y, m, d)` is a valid calendar date (month and day in range). -/
def validDate (y m d : Nat) : Bool :=
  1 ≤ m && m ≤ 12 && 1 ≤ d && d ≤ daysInMonth y m

/-- `(y, m, d)` at midnight is on or after the minimum representable
`pd.Timestamp` (1677-09-21T00:12:43.145...; the earliest representable
midnight is 1677-09-22). -/
def tsLowerOk (y m d : Nat) : Bool :=
  1677 < y || (y == 1677 && (9 < m || (m == 9 && 22 ≤ d)))

/-- `(y, m, d)` at midnight is on or before the maximum representable
`pd.Timestamp` (2262-04-11T23:47:16.854...). -/
def tsUpperOk (y m d : Nat) : Bool :=
  y < 2262 || (y == 2262 && (m < 4 || (m == 4 && d ≤ 11)))

/-- Models `pd.to_datetime(s, format="%Y%m%d", errors="coerce")` on a
string `s` given by the character list `l`: the string must be exactly
eight digits `YYYYMMDD` naming a valid calendar date representable as a
`pd.Timestamp`; everything else coerces to `NaT` (here `Cell.null`).
Out-of-range dates raise `OutOfBoundsDatetime`, which `errors="coerce"`
also turns into `NaT`. -/
def to_datetime_ymd (l : List Char) : Cell :=
  if l.length = 8 ∧ l.all Char.isDigit then
    let y := digitsVal (l.take 4)
    let m := digitsVal ((l.drop 4).take 2)
    let d := digitsVal (l.drop 6)
    if validDate y m d && tsLowerOk y m d && tsUpperOk y m d then Cell.date y m d
    else Cell.null
  else Cell.null

/-- Models `TwseOpenApi.parse_taiwanese_date` (src/twse_openapi.py:23-48):
non-strings and strings whose length is not 7 return `None`; otherwise the
first three characters are parsed with `int()` (a failure is caught and
returns `None`), 1911 is added, and the four remaining characters are
appended to the decimal rendering of that year before a strict
`%Y%m%d` parse with `errors="coerce"`. -/
def parse_taiwanese_date (c : Cell) : Cell :=
  match c with
  | Cell.str s =>
    if s.data.length = 7 then
      match pythonIntChars (s.data.take 3) with
      | some era => to_datetime_ymd ((toString (era + 1911)).data ++ s.data.drop 3)
      | none => Cell.null
    else Cell.null
  | _ => Cell.null

/-- Models `series.replace("--", None)` / `df.replace("--", pd.NA)` on one
cell: the literal sentinel string becomes null, everything else is kept. -/
def replaceSentinel (c : Cell) : Cell :=
  if c = Cell.str "--" then Cell.null else c

/-- The cell is a string or a null.  A pandas `.str` accessor
(`series.str.match`, `series.str.replace`) is usable exactly on columns
all of whose cells are strings or nulls; on any other column it raises
`AttributeError`. -/
def isStrOrNull : Cell → Bool
  | Cell.null => true
  | Cell.str _ => true
  | _ => false

/-- One cell's contribution to `series.str.match(r"^\d{7}$").all()`:
a null gives `NaN`, which `.all()` skips (modelled as `true`); a string
must be exactly seven digits.  Non-string cells cannot reach this test
(the `.str` accessor would have raised). -/
def match_seven : Cell → Bool
  | Cell.null => true
  | Cell.str s => s.data.length == 7 && s.data.all Char.isDigit
  | _ => false

/-- Models the string grammar accepted by `pd.to_numeric` (via Python
number literals): optional sign, integer digits, optional fractional
part, at least one digit.  Exponents, `inf`/`nan` and surrounding
whitespace are not modelled (no claim exercises them).  The value is
returned exactly, as a rational. -/
def parseDecimal (l : List Char) : Option Rat :=
  let core : List Char → Option Rat := fun l2 =>
    match l2.splitOn '.' with
    | [ip] =>
      if ip ≠ [] ∧ ip.all Char.isDigit then some ((digitsVal ip : Nat) : Rat) else none
    | [ip, fp] =>
      if (ip ≠ [] ∨ fp ≠ []) ∧ ip.all Char.isDigit ∧ fp.all Char.isDigit then
        some (((digitsVal ip : Nat) : Rat) + ((digitsVal fp : Nat) : Rat) / ((10 : Rat) ^ fp.length))
      else none
    | _ => none
  match l.head? with
  | some '-' => (core l.tail).map (fun q => -q)
  | some '+' => core l.tail
  | _ => core l

/-- One cell's contribution to
`pd.to_numeric(series.str.replace(",", ""), errors="raise")`: nulls pass
through as `NaN`; a string must parse as a number once every comma is
removed.  Non-string cells cannot reach this test (the `.str` accessor
raises `AttributeError` first, which `infer_column_type` catches). -/
def numericCellOk : Cell → Bool
  | Cell.null => true
  | Cell.str s => (parseDecimal (s.data.filter (fun c => c ≠ ','))).isSome
  | _ => false

/-- Models `TwseOpenApi.infer_column_type` (src/twse_openapi.py:50-95) at
its only used instantiation `is_taiwanese_date=True` (`parse_data` always
calls it with the default).  The sentinel is replaced by null, then:
if `series.str.match(r"^\d{7}$").all()` holds the column is `"date"`
(the subsequent `series.apply(parse_taiwanese_date)` can never raise, so
that `try` always succeeds); else if every value is numeric after comma
removal the column is `"numeric"`; otherwise `"categorical"`.
The `.str` accessor of the match test is *outside* any `try`, so a column
holding non-string, non-null cells raises `AttributeError`
(`Except.error`).  In the numeric test the accessor failure *is* caught
(`except (ValueError, AttributeError)`). -/
def infer_column_type (values : List Cell) : Except Unit String :=
  let series := values.map replaceSentinel
  if series.all isStrOrNull then
    if series.all match_seven then Except.ok "date"
    else if series.all numericCellOk then Except.ok "numeric"
    else Except.ok "categorical"
  else Except.error ()

/-- Per-cell effect of
`pd.to_numeric(df[col].str.replace(",", ""), errors="coerce")`:
nulls stay null, parse failures coerce to null, successes become numbers.
Non-string cells are unreachable (the `.str` accessor raises first). -/
def numeric_convert : Cell → Cell
  | Cell.null => Cell.null
  | Cell.str s =>
    match parseDecimal (s.data.filter (fun c => c ≠ ',')) with
    | some q => Cell.num q
    | none => Cell.null
  | _ => Cell.null

/-- Per-cell effect of
`pd.to_datetime(df[col], format="%Y%m%d", errors="coerce")` (the
non-Taiwanese date branch): nulls stay `NaT`, strings get a strict
`YYYYMMDD` parse, timestamps pass through; other cells coerce to `NaT`
(approximate — no claim exercises non-string cells on this branch). -/
def to_datetime_coerce : Cell → Cell
  | Cell.null => Cell.null
  | Cell.str s => to_datetime_ymd s.data
  | Cell.date y m d => Cell.date y m d
  | Cell.num _ => Cell.null

/-- Per-cell effect of `df[col].astype("string")`: strings and nulls are
kept; timestamps and numbers are rendered with `str()` (the numeric
rendering is approximate — `int64` versus `float64` formatting is not
tracked; no theorem below evaluates these two branches). -/
def pyStr : Cell → Cell
  | Cell.null => Cell.null
  | Cell.str s => Cell.str s
  | Cell.date y m d =>
    Cell.str (toString y ++ "-" ++ (if m < 10 then "0" else "") ++ toString m ++ "-"
      ++ (if d < 10 then "0" else "") ++ toString d ++ " 00:00:00")
  | Cell.num q => Cell.str (toString q)

/-- The per-cell conversion selected by the `if/elif` chain of
`parse_data` for an effective column type and the three enable switches:
dates (Taiwanese or ISO), numerics, categoricals (identity on cells) or
the `astype("string")` fallback. -/
def cell_convert (col_type : String) (parse_dates parse_numbers parse_categories is_taiwanese_date : Bool) : Cell → Cell :=
  if col_type = "date" ∧ parse_dates then
    (if is_taiwanese_date then parse_taiwanese_date else to_datetime_coerce)
  else if col_type = "numeric" ∧ parse_numbers then numeric_convert
  else if col_type = "categorical" ∧ parse_categories then id
  else pyStr

/-- One iteration of the column loop of `parse_data`
(src/twse_openapi.py:134-151), given the effective `col_type`: the date
branch applies `parse_taiwanese_date` (or the coercing `%Y%m%d` parse);
the numeric branch uses the `.str` accessor, which raises
`AttributeError` on a non-string column (uncaught in `parse_data`);
`astype("category")` keeps the cells; the `else` branch is
`astype("string")`.  The returned tag is the resulting column dtype. -/
def parse_column (col_type : String) (parse_dates parse_numbers parse_categories is_taiwanese_date : Bool) (values : List Cell) : Except Unit (String × List Cell) :=
  if col_type = "date" ∧ parse_dates then
    if is_taiwanese_date then Except.ok ("date", values.map parse_taiwanese_date)
    else Except.ok ("date", values.map to_datetime_coerce)
  else if col_type = "numeric" ∧ parse_numbers then
    if values.all isStrOrNull then Except.ok ("numeric", values.map numeric_convert)
    else Except.error ()
  else if col_type = "categorical" ∧ parse_categories then
    Except.ok ("categorical", values)
  else
    Except.ok ("string", values.map pyStr)

/-- Models `force_column_type.get(col, ...)`s dictionary lookup over an
association list. -/
def lookupForce (force : List (String × String)) (col : String) : Option String :=
  (force.find? (fun p => p.1 = col)).map (fun p => p.2)

/-- One output column of `parse_data`: its name, its resulting dtype tag
and its cells. -/
structure TypedColumn where
  name : String
  tag : String
  values : List Cell
deriving DecidableEq, Repr

/-- The column loop of `parse_data` (src/twse_openapi.py:134-151).
Python evaluates `force_column_type.get(col, self.infer_column_type(df[col]))`
eagerly: `infer_column_type` runs — and its uncaught `AttributeError`
escapes — even for a column whose type is forced. -/
def parse_columns (parse_dates parse_numbers parse_categories is_taiwanese_date : Bool) (force : List (String × String)) : List (String × List Cell) → Except Unit (List TypedColumn)
  | [] => Except.ok []
  | (n, vs) :: rest => do
    let inferred ← infer_column_type vs
    let col_type := (lookupForce force n).getD inferred
    let (tag, out) ← parse_column col_type parse_dates parse_numbers parse_categories is_taiwanese_date vs
    let restCols ← parse_columns parse_dates parse_numbers parse_categories is_taiwanese_date force rest
    pure (⟨n, tag, out⟩ :: restCols)

/-- Models `TwseOpenApi.parse_data` (src/twse_openapi.py:97-153) on a
column-major view of the `DataFrame`: when `self.return_raw` is set the
frame is returned verbatim (dtype `object`, no replacement, no
inference, no conversion); otherwise `"--"` is replaced by `pd.NA` over
the whole frame and each column is typed and converted in turn. -/
def parse_data (data_cols : List (String × List Cell)) (return_raw parse_dates parse_numbers parse_categories is_taiwanese_date : Bool) (force : List (String × String)) : Except Unit (List TypedColumn) :=
  if return_raw then
    Except.ok (data_cols.map (fun p => ⟨p.1, "object", p.2⟩))
  else
    parse_columns parse_dates parse_numbers parse_categories is_taiwanese_date force
      (data_cols.map (fun p => (p.1, p.2.map replaceSentinel)))

/-- Looking a key up in one record: present keys give their (string)
value, missing keys give `NaN` (as `pd.DataFrame` does). -/
def record_get (r : List (String × String)) (k : String) : Cell :=
  match r.find? (fun p => p.1 = k) with
  | some p => Cell.str p.2
  | none => Cell.null

/-- Column names of `pd.DataFrame(records)`: the union of the record
keys in order of first appearance. -/
def dedup_first (l : List String) : List String :=
  l.foldl (fun acc x => if x ∈ acc then acc else acc ++ [x]) []

/-- Models `pd.DataFrame(data)` on a list of records: one column per
distinct key, each column listing that key's value in every record in
record order. -/
def df_of_records (records : List (List (String × String))) : List (String × List Cell) :=
  (dedup_first (records.flatMap (fun r => r.map Prod.fst))).map
    (fun k => (k, records.map (fun r => record_get r k)))

/-- The part of an HTTP response that `get_industry_eps_stat_info`
inspects: the status code and the JSON body (a list of flat
string-to-string records). -/
structure HttpResponse where
  status_code : Nat
  json : List (List (String × String))

/-- The `force_column_type` argument hard-coded in
`get_industry_eps_stat_info`. -/
def eps_force : List (String × String) :=
  [("年度", "categorical"), ("季別", "categorical"), ("公司代號", "categorical"), ("公司名稱", "string")]

/-- Models `TwseOpenApi.get_industry_eps_stat_info`
(src/twse_openapi.py:155-185) as a function of the (single) HTTP
response: on status 200 the JSON body is parsed into a frame and
normalized with the hard-coded overrides and no diagnostic is printed;
on any other status the result is `None` and exactly one error line is
printed.  There is no retry: the function consumes one response. -/
def get_industry_eps_stat_info (base_url : String) (return_raw : Bool) (response : HttpResponse) : Option (Except Unit (List TypedColumn)) × List String :=
  let url := base_url ++ "opendata/t187ap14_L"
  if response.status_code = 200 then
    (some (parse_data (df_of_records response.json) return_raw true true true true eps_force), [])
  else
    let c := response.status_code
    (none, [s!"Error {c} fetching data from {url}."])

/-! ## Basic lemmas about the embedding -/

theorem isDigit_ne_dash {c : Char} (h : c.isDigit = true) : c ≠ '-' := by
  intro he; subst he; exact absurd h (by decide)

theorem isDigit_ne_plus {c : Char} (h : c.isDigit = true) : c ≠ '+' := by
  intro he; subst he; exact absurd h (by decide)

theorem isDigit_toNat_le {c : Char} (h : c.isDigit = true) : c.toNat - 48 ≤ 9 := by
  simp only [Char.isDigit, Bool.and_eq_true, decide_eq_true_eq, ge_iff_le] at h
  have h2 := h.2
  have : c.val.toNat ≤ 57 := by
    have := UInt32.toNat_le_of_le (n := c.val) (m := 57) (by decide) h2
    exact this
  simp only [Char.toNat]
  omega

theorem replaceSentinel_isStrOrNull (c : Cell) :
    isStrOrNull (replaceSentinel c) = isStrOrNull c := by
  by_cases h : c = Cell.str "--"
  · subst h; decide
  · simp [replaceSentinel, h]

theorem replaceSentinel_idem (c : Cell) :
    replaceSentinel (replaceSentinel c) = replaceSentinel c := by
  by_cases h : c = Cell.str "--"
  · subst h; decide
  · simp [replaceSentinel, h]

theorem to_datetime_ymd_null_or_date (l : List Char) :
    to_datetime_ymd l = Cell.null ∨ ∃ y m d, to_datetime_ymd l = Cell.date y m d := by
  unfold to_datetime_ymd
  split
  · dsimp only
    split
    · right; exact ⟨_, _, _, rfl⟩
    · left; rfl
  · left; rfl

theorem infer_ok_of_strnull {values : List Cell} (h : values.all isStrOrNull = true) :
    ∃ t, infer_column_type values = Except.ok t ∧
      (t = "date" ∨ t = "numeric" ∨ t = "categorical") := by
  have hs : (values.map replaceSentinel).all isStrOrNull = true := by
    rw [List.all_map]
    rw [List.all_eq_true] at h ⊢
    intro c hc
    simpa [Function.comp, replaceSentinel_isStrOrNull] using h c hc
  unfold infer_column_type
  dsimp only
  rw [if_pos hs]
  split
  · exact ⟨"date", rfl, Or.inl rfl⟩
  · split
    · exact ⟨"numeric", rfl, Or.inr (Or.inl rfl)⟩
    · exact ⟨"categorical", rfl, Or.inr (Or.inr rfl)⟩

/-! ## The claims -/

/-- C10: with `return_raw` set at construction, `parse_data` returns the
input frame verbatim as untyped (`object`-dtype) columns — no sentinel
replacement, no type inference, no override application and no per-value
conversion — for every input, option switches and override mapping. -/
theorem return_raw_passthrough (data_cols : List (String × List Cell))
    (pdates pnums pcats itw : Bool) (force : List (String × String)) :
    parse_data data_cols true pdates pnums pcats itw force =
      Except.ok (data_cols.map (fun p => ⟨p.1, "object", p.2⟩)) := rfl

/-- C5: `parse_taiwanese_date` is total: its result is always null or a
date (it never raises), any string input whose length is not 7 yields
null, and any non-string input yields null. -/
theorem parse_taiwanese_date_total :
    (∀ c : Cell, parse_taiwanese_date c = Cell.null ∨
      ∃ y m d, parse_taiwanese_date c = Cell.date y m d) ∧
    (∀ s : String, s.data.length ≠ 7 → parse_taiwanese_date (Cell.str s) = Cell.null) ∧
    (∀ c : Cell, (∀ s, c ≠ Cell.str s) → parse_taiwanese_date c = Cell.null) := by
  refine ⟨?_, ?_, ?_⟩
  · intro c
    cases c with
    | str s =>
      simp only [parse_taiwanese_date]
      split
      · cases hm : pythonIntChars (s.data.take 3) with
        | some era => exact to_datetime_ymd_null_or_date _
        | none => left; rfl
      · left; rfl
    | null => left; rfl
    | date y m d => left; rfl
    | num q => left; rfl
  · intro s h
    simp only [parse_taiwanese_date]
    rw [if_neg h]
  · intro c h
    cases c with
    | str s => exact absurd rfl (h s)
    | null => rfl
    | date y m d => rfl
    | num q => rfl

theorem parse_taiwanese_date_total_witness :
    parse_taiwanese_date (Cell.str "12") = Cell.null ∧
    parse_taiwanese_date (Cell.num 3) = Cell.null :=
  ⟨parse_taiwanese_date_total.2.1 "12" (by decide),
   parse_taiwanese_date_total.2.2 (Cell.num 3) (by intro s h; exact Cell.noConfusion h)⟩

/-- C6: on a column of raw string/null cells (the only shape a raw
dataset produces, and the shape left after sentinel replacement),
`infer_column_type` never raises: it always returns one of the type
tags, falling through to `"categorical"` when the date and numeric
tests fail. -/
theorem infer_never_raises (values : List Cell) (h : values.all isStrOrNull = true) :
    ∃ t, infer_column_type values = Except.ok t ∧
      (t = "date" ∨ t = "numeric" ∨ t = "categorical") :=
  infer_ok_of_strnull h

theorem infer_never_raises_witness :
    ∃ t, infer_column_type [Cell.str "abc", Cell.null] = Except.ok t ∧
      (t = "date" ∨ t = "numeric" ∨ t = "categorical") :=
  infer_never_raises [Cell.str "abc", Cell.null] (by decide)

/-- C8: the fetch returns the parsed and normalized table exactly when
the HTTP status is 200; on any other status it returns an absent result
together with exactly one diagnostic message, and it consumes a single
response (no retry). -/
theorem fetch_status_behavior (base_url : String) (return_raw : Bool) (resp : HttpResponse) :
    (resp.status_code = 200 →
      get_industry_eps_stat_info base_url return_raw resp =
        (some (parse_data (df_of_records resp.json) return_raw true true true true eps_force), [])) ∧
    (resp.status_code ≠ 200 →
      (get_industry_eps_stat_info base_url return_raw resp).1 = none ∧
      ∃ msg, (get_industry_eps_stat_info base_url return_raw resp).2 = [msg]) := by
  constructor
  · intro h
    unfold get_industry_eps_stat_info
    rw [if_pos h]
  · intro h
    unfold get_industry_eps_stat_info
    rw [if_neg h]
    exact ⟨rfl, _, rfl⟩

theorem fetch_status_behavior_witness :
    get_industry_eps_stat_info "u" false ⟨200, []⟩ =
      (some (parse_data (df_of_records []) false true true true true eps_force), []) ∧
    (get_industry_eps_stat_info "u" false ⟨404, []⟩).1 = none ∧
    ∃ msg, (get_industry_eps_stat_info "u" false ⟨404, []⟩).2 = [msg] :=
  ⟨(fetch_status_behavior "u" false ⟨200, []⟩).1 rfl,
   (fetch_status_behavior "u" false ⟨404, []⟩).2 (by decide)⟩

/-! ## Lemmas about seven-digit local-era strings -/

theorem digitsVal_triple (a b c : Char) :
    digitsVal [a, b, c] = 100 * (a.toNat - 48) + 10 * (b.toNat - 48) + (c.toNat - 48) := by
  simp [digitsVal, List.foldl]
  ring

theorem digitsVal_triple_lt {a b c : Char} (ha : a.isDigit = true) (hb : b.isDigit = true)
    (hc : c.isDigit = true) : digitsVal [a, b, c] < 1000 := by
  have h1 := isDigit_toNat_le ha
  have h2 := isDigit_toNat_le hb
  have h3 := isDigit_toNat_le hc
  rw [digitsVal_triple]
  omega

set_option maxRecDepth 8000 in
theorem toString_year_digits : ∀ n : Nat, n < 1000 →
    ((toString ((n : Int) + 1911)).data.length = 4 ∧
     ((toString ((n : Int) + 1911)).data.all Char.isDigit) = true ∧
     digitsVal ((toString ((n : Int) + 1911)).data) = n + 1911) := by decide

theorem pythonIntChars_digits {a b c : Char} (ha : a.isDigit = true) (hb : b.isDigit = true)
    (hc : c.isDigit = true) :
    pythonIntChars [a, b, c] = some ((digitsVal [a, b, c] : Nat) : Int) := by
  unfold pythonIntChars
  rw [if_neg, if_neg]
  · unfold parseNatDigits
    rw [if_pos ⟨by simp, by simp [ha, hb, hc]⟩]
    rfl
  · simp only [List.head?, Option.some.injEq]
    exact isDigit_ne_plus ha
  · simp only [List.head?, Option.some.injEq]
    exact isDigit_ne_dash ha

theorem parse_taiwanese_date_seven {s : String} {a b c d e f g : Char}
    (hs : s.data = [a, b, c, d, e, f, g])
    (ha : a.isDigit = true) (hb : b.isDigit = true) (hc : c.isDigit = true)
    (hd : d.isDigit = true) (he : e.isDigit = true) (hf : f.isDigit = true)
    (hg : g.isDigit = true) :
    parse_taiwanese_date (Cell.str s) =
      (if (validDate (digitsVal [a, b, c] + 1911) (digitsVal [d, e]) (digitsVal [f, g]) &&
          tsLowerOk (digitsVal [a, b, c] + 1911) (digitsVal [d, e]) (digitsVal [f, g]) &&
          tsUpperOk (digitsVal [a, b, c] + 1911) (digitsVal [d, e]) (digitsVal [f, g])) = true
       then Cell.date (digitsVal [a, b, c] + 1911) (digitsVal [d, e]) (digitsVal [f, g])
       else Cell.null) := by
  have hera : digitsVal [a, b, c] < 1000 := digitsVal_triple_lt ha hb hc
  obtain ⟨hY4, hYdig, hYval⟩ := toString_year_digits (digitsVal [a, b, c]) hera
  simp only [parse_taiwanese_date, hs]
  rw [if_pos (show ([a, b, c, d, e, f, g] : List Char).length = 7 from rfl)]
  rw [show ([a, b, c, d, e, f, g] : List Char).take 3 = [a, b, c] from rfl,
      show ([a, b, c, d, e, f, g] : List Char).drop 3 = [d, e, f, g] from rfl,
      pythonIntChars_digits ha hb hc]
  dsimp only
  unfold to_datetime_ymd
  rw [if_pos ⟨by simp [hY4], by rw [List.all_append]; simp [hYdig, hd, he, hf, hg]⟩]
  dsimp only
  rw [List.take_left' hY4, List.drop_left' hY4,
      show ([d, e, f, g] : List Char).take 2 = [d, e] from rfl]
  rw [show (6 : Nat) = 4 + 2 from rfl, ← List.drop_drop, List.drop_left' hY4,
      show ([d, e, f, g] : List Char).drop 2 = [f, g] from rfl]
  rw [hYval]

theorem parse_taiwanese_date_decode {s : String} {a b c d e f g : Char}
    (hs : s.data = [a, b, c, d, e, f, g])
    (ha : a.isDigit = true) (hb : b.isDigit = true) (hc : c.isDigit = true)
    (hd : d.isDigit = true) (he : e.isDigit = true) (hf : f.isDigit = true)
    (hg : g.isDigit = true)
    (hm1 : 1 ≤ digitsVal [d, e]) (hm2 : digitsVal [d, e] ≤ 12)
    (hd1 : 1 ≤ digitsVal [f, g])
    (hd2 : digitsVal [f, g] ≤ daysInMonth (digitsVal [a, b, c] + 1911) (digitsVal [d, e]))
    (hub : tsUpperOk (digitsVal [a, b, c] + 1911) (digitsVal [d, e]) (digitsVal [f, g]) = true) :
    parse_taiwanese_date (Cell.str s) =
      Cell.date (digitsVal [a, b, c] + 1911) (digitsVal [d, e]) (digitsVal [f, g]) := by
  rw [parse_taiwanese_date_seven hs ha hb hc hd he hf hg]
  have hlow : tsLowerOk (digitsVal [a, b, c] + 1911) (digitsVal [d, e]) (digitsVal [f, g]) = true := by
    simp only [tsLowerOk, Bool.or_eq_true, decide_eq_true_eq]
    left; omega
  have hvd : validDate (digitsVal [a, b, c] + 1911) (digitsVal [d, e]) (digitsVal [f, g]) = true := by
    simp only [validDate, Bool.and_eq_true, decide_eq_true_eq]
    exact ⟨⟨⟨hm1, hm2⟩, hd1⟩, hd2⟩
  simp [hvd, hlow, hub]

theorem parse_taiwanese_date_invalid {s : String} {a b c d e f g : Char}
    (hs : s.data = [a, b, c, d, e, f, g])
    (ha : a.isDigit = true) (hb : b.isDigit = true) (hc : c.isDigit = true)
    (hd : d.isDigit = true) (he : e.isDigit = true) (hf : f.isDigit = true)
    (hg : g.isDigit = true)
    (hbad : validDate (digitsVal [a, b, c] + 1911) (digitsVal [d, e]) (digitsVal [f, g]) = false) :
    parse_taiwanese_date (Cell.str s) = Cell.null := by
  rw [parse_taiwanese_date_seven hs ha hb hc hd he hf hg]
  simp [hbad]

theorem infer_date_of_sevens {values : List Cell}
    (h : ∀ c ∈ values, c = Cell.null ∨ c = Cell.str "--" ∨
        ∃ s, c = Cell.str s ∧ s.data.length = 7 ∧ s.data.all Char.isDigit = true) :
    infer_column_type values = Except.ok "date" := by
  have key : ∀ c ∈ values.map replaceSentinel, isStrOrNull c = true ∧ match_seven c = true := by
    intro c hc
    rw [List.mem_map] at hc
    obtain ⟨c0, hc0, rfl⟩ := hc
    rcases h c0 hc0 with rfl | rfl | ⟨s, rfl, h7, hdig⟩
    · exact (by decide)
    · exact (by decide)
    · have hne : ¬(Cell.str s = Cell.str "--") := by
        intro hEq
        injection hEq with hEq2
        rw [hEq2] at h7
        exact absurd h7 (by decide)
      rw [replaceSentinel, if_neg hne]
      refine ⟨rfl, ?_⟩
      simp [match_seven, h7, hdig]
  have hs : (values.map replaceSentinel).all isStrOrNull = true := by
    rw [List.all_eq_true]; intro c hc; exact (key c hc).1
  have h7 : (values.map replaceSentinel).all match_seven = true := by
    rw [List.all_eq_true]; intro c hc; exact (key c hc).2
  unfold infer_column_type
  dsimp only
  rw [if_pos hs, if_pos h7]

/-- C1 (amended): for every column whose cells are null, the sentinel, or
exactly seven digits, `infer_column_type` returns the `"date"` tag; the
per-value conversion maps each seven-digit value whose last four digits
form a valid month/day for the year `first three digits + 1911` to that
calendar date *provided the date is not past the maximal representable
timestamp 2262-04-11* (values decoding past it coerce to null — see the
counterexample `taiwanese_date_out_of_range`, which forces this proviso);
in particular `"1131227"` maps to 2024-12-27. -/
theorem taiwanese_date_column_spec :
    (∀ values : List Cell,
      (∀ c ∈ values, c = Cell.null ∨ c = Cell.str "--" ∨
        ∃ s, c = Cell.str s ∧ s.data.length = 7 ∧ s.data.all Char.isDigit = true) →
      infer_column_type values = Except.ok "date") ∧
    (∀ (s : String) (a b c d e f g : Char), s.data = [a, b, c, d, e, f, g] →
      a.isDigit = true → b.isDigit = true → c.isDigit = true → d.isDigit = true →
      e.isDigit = true → f.isDigit = true → g.isDigit = true →
      1 ≤ digitsVal [d, e] → digitsVal [d, e] ≤ 12 → 1 ≤ digitsVal [f, g] →
      digitsVal [f, g] ≤ daysInMonth (digitsVal [a, b, c] + 1911) (digitsVal [d, e]) →
      tsUpperOk (digitsVal [a, b, c] + 1911) (digitsVal [d, e]) (digitsVal [f, g]) = true →
      parse_taiwanese_date (Cell.str s) =
        Cell.date (digitsVal [a, b, c] + 1911) (digitsVal [d, e]) (digitsVal [f, g])) ∧
    parse_taiwanese_date (Cell.str "1131227") = Cell.date 2024 12 27 := by
  refine ⟨fun values h => infer_date_of_sevens h, ?_, by decide⟩
  intro s a b c d e f g hs ha hb hc hd he hf hg hm1 hm2 hd1 hd2 hub
  exact parse_taiwanese_date_decode hs ha hb hc hd he hf hg hm1 hm2 hd1 hd2 hub

theorem taiwanese_date_column_spec_witness :
    infer_column_type [Cell.str "1131227", Cell.str "--", Cell.null] = Except.ok "date" ∧
    parse_taiwanese_date (Cell.str "1010229") = Cell.date 2012 2 29 := by
  constructor
  · refine taiwanese_date_column_spec.1 _ ?_
    intro c hc
    simp only [List.mem_cons, List.not_mem_nil, or_false] at hc
    rcases hc with rfl | rfl | rfl
    · exact Or.inr (Or.inr ⟨"1131227", rfl, by decide, by decide⟩)
    · exact Or.inr (Or.inl rfl)
    · exact Or.inl rfl
  · exact (taiwanese_date_column_spec.2.1 "1010229" '1' '0' '1' '0' '2' '2' '9'
      (by decide) (by decide) (by decide) (by decide) (by decide) (by decide) (by decide)
      (by decide) (by decide) (by decide) (by decide) (by decide) (by decide)).trans (by decide)

/-- C1 counterexample: `"3520101"` is exactly seven digits and decodes to
the valid local-era date 352-01-01, whose calendar year is
352 + 1911 = 2263; the claim maps it to the calendar date 2263-01-01, but
the code's conversion yields null: 2263-01-01 lies past the maximal
representable `pd.Timestamp` 2262-04-11, and the resulting
`OutOfBoundsDatetime` is coerced to `NaT` by `errors="coerce"`. -/
theorem taiwanese_date_out_of_range :
    match_seven (Cell.str "3520101") = true ∧
    validDate (352 + 1911) 1 1 = true ∧
    parse_taiwanese_date (Cell.str "3520101") = Cell.null ∧
    parse_taiwanese_date (Cell.str "3520101") ≠ Cell.date 2263 1 1 := by decide

/-- C9: whenever every cell of a column is null or exactly seven digits,
`infer_column_type` classifies the column as `"date"` even when the last
four digits are not a valid month/day (`parse_taiwanese_date` coerces
such values to null instead of raising, so the `series.apply` test always
succeeds); the subsequent conversion turns those structurally seven-digit
but calendar-invalid values into nulls, e.g. `"1131332"`. -/
theorem seven_digit_invalid_mmdd_spec :
    (∀ values : List Cell,
      (∀ c ∈ values, c = Cell.null ∨
        ∃ s, c = Cell.str s ∧ s.data.length = 7 ∧ s.data.all Char.isDigit = true) →
      infer_column_type values = Except.ok "date") ∧
    (∀ (s : String) (a b c d e f g : Char), s.data = [a, b, c, d, e, f, g] →
      a.isDigit = true → b.isDigit = true → c.isDigit = true → d.isDigit = true →
      e.isDigit = true → f.isDigit = true → g.isDigit = true →
      validDate (digitsVal [a, b, c] + 1911) (digitsVal [d, e]) (digitsVal [f, g]) = false →
      parse_taiwanese_date (Cell.str s) = Cell.null) ∧
    infer_column_type [Cell.str "1131332"] = Except.ok "date" ∧
    parse_taiwanese_date (Cell.str "1131332") = Cell.null := by
  refine ⟨?_, ?_, rfl, by decide⟩
  · intro values h
    exact infer_date_of_sevens (fun c hc => (h c hc).elim Or.inl (fun x => Or.inr (Or.inr x)))
  · intro s a b c d e f g hs ha hb hc hd he hf hg hbad
    exact parse_taiwanese_date_invalid hs ha hb hc hd he hf hg hbad

theorem seven_digit_invalid_mmdd_spec_witness :
    infer_column_type [Cell.str "1131332", Cell.null] = Except.ok "date" ∧
    parse_taiwanese_date (Cell.str "1130230") = Cell.null := by
  constructor
  · refine seven_digit_invalid_mmdd_spec.1 _ ?_
    intro c hc
    simp only [List.mem_cons, List.not_mem_nil, or_false] at hc
    rcases hc with rfl | rfl
    · exact Or.inr ⟨"1131332", rfl, by decide, by decide⟩
    · exact Or.inl rfl
  · exact seven_digit_invalid_mmdd_spec.2.1 "1130230" '1' '1' '3' '0' '2' '3' '0' (by decide)
      (by decide) (by decide) (by decide) (by decide) (by decide) (by decide) (by decide)
      (by decide)

/-- C2 counterexample: `["1234567"]` is a column containing only numeric
strings, yet `infer_column_type` classifies it as `"date"`, not
`"numeric"`: the seven-digit date test runs first and wins. -/
theorem numeric_seven_digit_counterexample :
    infer_column_type [Cell.str "1234567"] = Except.ok "date" ∧
    ¬ infer_column_type [Cell.str "1234567"] = Except.ok "numeric" := by
  constructor
  · rfl
  · intro h
    have : ("date" : String) = "numeric" := by
      have h0 : infer_column_type [Cell.str "1234567"] = Except.ok "date" := rfl
      rw [h0] at h
      injection h
    exact absurd this (by decide)

/-- C2 (amended): for every column containing only numeric strings
(optionally with thousands-separator commas) and the sentinel `"--"`,
*at least one of whose non-sentinel values is not a seven-digit string*
(the seven-digit date test runs first and would otherwise win — see the
counterexample `numeric_seven_digit_counterexample`, which forces this
proviso), `infer_column_type` returns the `"numeric"` tag; the numeric
conversion strips commas and maps `"1,234"` to 1234 and the (replaced)
sentinel to null; and the column `["100", "--", "200"]` normalizes to
`[100, null, 200]` with type `"numeric"`. -/
theorem numeric_column_spec :
    (∀ values : List Cell,
      (∀ c ∈ values, c = Cell.null ∨ c = Cell.str "--" ∨
        ∃ s, c = Cell.str s ∧
          (parseDecimal (s.data.filter (fun ch => ch ≠ ','))).isSome = true) →
      (∃ s, Cell.str s ∈ values ∧ s ≠ "--" ∧
        ¬(s.data.length = 7 ∧ s.data.all Char.isDigit = true)) →
      infer_column_type values = Except.ok "numeric") ∧
    numeric_convert (Cell.str "1,234") = Cell.num 1234 ∧
    numeric_convert (replaceSentinel (Cell.str "--")) = Cell.null ∧
    parse_data [("col", [Cell.str "100", Cell.str "--", Cell.str "200"])]
        false true true true true [] =
      Except.ok [⟨"col", "numeric", [Cell.num 100, Cell.null, Cell.num 200]⟩] := by
  refine ⟨?_, by decide, by decide, rfl⟩
  intro values hall hnot7
  have hs : (values.map replaceSentinel).all isStrOrNull = true := by
    rw [List.all_eq_true]
    intro c hc
    rw [List.mem_map] at hc
    obtain ⟨c0, hc0, rfl⟩ := hc
    rcases hall c0 hc0 with rfl | rfl | ⟨s, rfl, _⟩
    · decide
    · decide
    · rw [replaceSentinel_isStrOrNull]; rfl
  have h7 : ¬((values.map replaceSentinel).all match_seven = true) := by
    obtain ⟨s, hmem, hne, hn7⟩ := hnot7
    intro hallm
    rw [List.all_eq_true] at hallm
    have hm := hallm _ (List.mem_map_of_mem replaceSentinel hmem)
    have hrs : replaceSentinel (Cell.str s) = Cell.str s := by
      unfold replaceSentinel
      rw [if_neg]
      intro hEq
      injection hEq with hEq2
      exact hne hEq2
    rw [hrs] at hm
    simp only [match_seven, Bool.and_eq_true, beq_iff_eq] at hm
    exact hn7 ⟨hm.1, hm.2⟩
  have hn : (values.map replaceSentinel).all numericCellOk = true := by
    rw [List.all_eq_true]
    intro c hc
    rw [List.mem_map] at hc
    obtain ⟨c0, hc0, rfl⟩ := hc
    rcases hall c0 hc0 with rfl | rfl | ⟨s, rfl, hsome⟩
    · decide
    · decide
    · by_cases hse : Cell.str s = Cell.str "--"
      · rw [replaceSentinel, if_pos hse]; rfl
      · rw [replaceSentinel, if_neg hse]
        simpa [numericCellOk] using hsome
  unfold infer_column_type
  dsimp only
  rw [if_pos hs, if_neg h7, if_pos hn]

theorem numeric_column_spec_witness :
    infer_column_type [Cell.str "100", Cell.str "--", Cell.str "1,234"] =
      Except.ok "numeric" := by
  refine numeric_column_spec.1 _ ?_ ⟨"100", by simp, by decide, by decide⟩
  intro c hc
  simp only [List.mem_cons, List.not_mem_nil, or_false] at hc
  rcases hc with rfl | rfl | rfl
  · exact Or.inr (Or.inr ⟨"100", rfl, by decide⟩)
  · exact Or.inr (Or.inl rfl)
  · exact Or.inr (Or.inr ⟨"1,234", rfl, by decide⟩)

/-! ## Lemmas about the column loop of `parse_data` -/

theorem parse_column_ok_map {ct : String} {a b c d : Bool} {vs : List Cell}
    {tag : String} {out : List Cell}
    (h : parse_column ct a b c d vs = Except.ok (tag, out)) :
    out = vs.map (cell_convert ct a b c d) := by
  unfold parse_column at h
  unfold cell_convert
  split at h
  · rename_i hq
    rw [if_pos hq]
    split at h
    · rename_i hit
      rw [if_pos hit]
      simp only [Except.ok.injEq, Prod.mk.injEq] at h
      exact h.2.symm
    · rename_i hit
      rw [if_neg hit]
      simp only [Except.ok.injEq, Prod.mk.injEq] at h
      exact h.2.symm
  · rename_i hq
    rw [if_neg hq]
    split at h
    · rename_i hq2
      rw [if_pos hq2]
      split at h
      · simp only [Except.ok.injEq, Prod.mk.injEq] at h
        exact h.2.symm
      · exact absurd h (by simp)
    · rename_i hq2
      rw [if_neg hq2]
      split at h
      · rename_i hq3
        rw [if_pos hq3]
        simp only [Except.ok.injEq, Prod.mk.injEq] at h
        rw [← h.2, List.map_id]
      · rename_i hq3
        rw [if_neg hq3]
        simp only [Except.ok.injEq, Prod.mk.injEq] at h
        exact h.2.symm

theorem parse_column_tag {ct : String} {a b c d : Bool} {vs : List Cell}
    {tag : String} {out : List Cell}
    (h : parse_column ct a b c d vs = Except.ok (tag, out)) :
    tag = "date" ∨ tag = "numeric" ∨ tag = "categorical" ∨ tag = "string" := by
  unfold parse_column at h
  split at h
  · split at h
    · simp only [Except.ok.injEq, Prod.mk.injEq] at h
      exact Or.inl h.1.symm
    · simp only [Except.ok.injEq, Prod.mk.injEq] at h
      exact Or.inl h.1.symm
  · split at h
    · split at h
      · simp only [Except.ok.injEq, Prod.mk.injEq] at h
        exact Or.inr (Or.inl h.1.symm)
      · exact absurd h (by simp)
    · split at h
      · simp only [Except.ok.injEq, Prod.mk.injEq] at h
        exact Or.inr (Or.inr (Or.inl h.1.symm))
      · simp only [Except.ok.injEq, Prod.mk.injEq] at h
        exact Or.inr (Or.inr (Or.inr h.1.symm))

theorem parse_column_ok_of_strnull (ct : String) (a b c d : Bool) {vs : List Cell}
    (hvs : vs.all isStrOrNull = true) :
    ∃ tag out, parse_column ct a b c d vs = Except.ok (tag, out) := by
  unfold parse_column
  by_cases h1 : ct = "date" ∧ a = true
  · rw [if_pos h1]
    by_cases h4 : d = true
    · rw [if_pos h4]; exact ⟨_, _, rfl⟩
    · rw [if_neg h4]; exact ⟨_, _, rfl⟩
  · rw [if_neg h1]
    by_cases h2 : ct = "numeric" ∧ b = true
    · rw [if_pos h2, if_pos hvs]; exact ⟨_, _, rfl⟩
    · rw [if_neg h2]
      by_cases h3 : ct = "categorical" ∧ c = true
      · rw [if_pos h3]; exact ⟨_, _, rfl⟩
      · rw [if_neg h3]; exact ⟨_, _, rfl⟩

theorem parse_columns_ok_of_strnull (a b c d : Bool) (force : List (String × String)) :
    ∀ cols : List (String × List Cell), (∀ p ∈ cols, p.2.all isStrOrNull = true) →
      ∃ T, parse_columns a b c d force cols = Except.ok T ∧
        List.Forall₂ (fun (p : String × List Cell) (col : TypedColumn) =>
          col.name = p.1 ∧ ∃ ct, col.values = p.2.map (cell_convert ct a b c d)) cols T
  | [], _ => ⟨[], rfl, List.Forall₂.nil⟩
  | (n, vs) :: rest, h => by
    have hvs : vs.all isStrOrNull = true := h (n, vs) (List.mem_cons_self _ _)
    obtain ⟨t, hinf, -⟩ := infer_ok_of_strnull hvs
    obtain ⟨tag, out, hpc⟩ :=
      parse_column_ok_of_strnull ((lookupForce force n).getD t) a b c d hvs
    obtain ⟨T, hT, hf⟩ := parse_columns_ok_of_strnull a b c d force rest
      (fun p hp => h p (List.mem_cons_of_mem _ hp))
    refine ⟨⟨n, tag, out⟩ :: T, ?_, List.Forall₂.cons ⟨rfl, ?_⟩ hf⟩
    · simp only [parse_columns, bind, Except.bind, hinf, hpc, hT, pure, Except.pure]
    · exact ⟨_, parse_column_ok_map hpc⟩

theorem forall2_map_name {a b c d : Bool} {cols : List (String × List Cell)} {T : List TypedColumn}
    (hf : List.Forall₂ (fun (p : String × List Cell) (col : TypedColumn) =>
      col.name = p.1 ∧ ∃ ct, col.values = p.2.map (cell_convert ct a b c d)) cols T) :
    T.map (fun col => col.name) = cols.map Prod.fst := by
  induction hf with
  | nil => rfl
  | cons h₁ h₂ ih => simp only [List.map_cons, ih, h₁.1]

theorem record_get_isStrOrNull (r : List (String × String)) (k : String) :
    isStrOrNull (record_get r k) = true := by
  unfold record_get
  cases r.find? (fun p => p.1 = k) <;> rfl

/-- C4: for every input record list, `parse_data` (on the frame built
from the records) produces exactly one typed column per distinct input
key, in order; every output column has as many cells as there are input
records; and the cell of a column at row `i` is the column's per-cell
conversion applied to record `i`'s value for that column (row alignment
is preserved). -/
theorem parse_data_row_alignment (records : List (List (String × String)))
    (a b c d : Bool) (force : List (String × String)) :
    ∃ T, parse_data (df_of_records records) false a b c d force = Except.ok T ∧
      T.map (fun col => col.name) =
        dedup_first (records.flatMap (fun r => r.map Prod.fst)) ∧
      (∀ col ∈ T, col.values.length = records.length) ∧
      (∀ col ∈ T, ∃ ct, ∀ i (hi : i < records.length),
        col.values.get? i = some (cell_convert ct a b c d
          (replaceSentinel (record_get (records.get ⟨i, hi⟩) col.name)))) := by
  have hcols : (df_of_records records).map (fun p => (p.1, p.2.map replaceSentinel)) =
      (dedup_first (records.flatMap (fun r => r.map Prod.fst))).map
        (fun k => (k, (records.map (fun r => record_get r k)).map replaceSentinel)) := by
    unfold df_of_records
    rw [List.map_map]
    rfl
  have hstr : ∀ p ∈ (dedup_first (records.flatMap (fun r => r.map Prod.fst))).map
      (fun k => (k, (records.map (fun r => record_get r k)).map replaceSentinel)),
      p.2.all isStrOrNull = true := by
    intro p hp
    rw [List.mem_map] at hp
    obtain ⟨k, hk, rfl⟩ := hp
    simp only [List.all_map, List.all_eq_true]
    intro r hr
    rw [List.mem_map] at hr
    obtain ⟨r0, hr0, rfl⟩ := hr
    simp [Function.comp, replaceSentinel_isStrOrNull, record_get_isStrOrNull]
  obtain ⟨T, hT, hf⟩ := parse_columns_ok_of_strnull a b c d force _ hstr
  refine ⟨T, ?_, ?_, ?_, ?_⟩
  · show parse_columns a b c d force
      ((df_of_records records).map (fun p => (p.1, p.2.map replaceSentinel))) = Except.ok T
    rw [hcols]
    exact hT
  · rw [forall2_map_name hf, List.map_map]
    exact List.map_id'' (fun k => rfl) _
  · intro col hcol
    obtain ⟨⟨j, hj⟩, rfl⟩ := List.mem_iff_get.mp hcol
    have hjc : j < ((dedup_first (records.flatMap (fun r => r.map Prod.fst))).map
        (fun k => (k, (records.map (fun r => record_get r k)).map replaceSentinel))).length := by
      rw [hf.length_eq]; exact hj
    have hrel := (List.forall₂_iff_get.mp hf).2 j hjc hj
    obtain ⟨hname, ct, hvals⟩ := hrel
    rw [List.get_map] at hvals
    rw [hvals]
    simp [List.length_map]
  · intro col hcol
    obtain ⟨⟨j, hj⟩, rfl⟩ := List.mem_iff_get.mp hcol
    have hjc : j < ((dedup_first (records.flatMap (fun r => r.map Prod.fst))).map
        (fun k => (k, (records.map (fun r => record_get r k)).map replaceSentinel))).length := by
      rw [hf.length_eq]; exact hj
    have hrel := (List.forall₂_iff_get.mp hf).2 j hjc hj
    obtain ⟨hname, ct, hvals⟩ := hrel
    rw [List.get_map] at hvals hname
    refine ⟨ct, ?_⟩
    intro i hi
    rw [hvals, List.get?_map, List.get?_map, List.get?_map, List.get?_eq_get hi, hname]
    rfl

theorem parse_data_row_alignment_witness :
    ∃ T, parse_data (df_of_records [[("a", "1")]]) false true true true true [] = Except.ok T ∧
      T.map (fun col => col.name) =
        dedup_first (([[("a", "1")]] : List (List (String × String))).flatMap
          (fun r => r.map Prod.fst)) ∧
      (∀ col ∈ T, col.values.length = ([[("a", "1")]] : List (List (String × String))).length) ∧
      (∀ col ∈ T, ∃ ct, ∀ i (hi : i < ([[("a", "1")]] : List (List (String × String))).length),
        col.values.get? i = some (cell_convert ct true true true true
          (replaceSentinel (record_get (([[("a", "1")]] :
            List (List (String × String))).get ⟨i, hi⟩) col.name)))) :=
  parse_data_row_alignment [[("a", "1")]] true true true true []

theorem parse_columns_forced {a b c d : Bool} {force : List (String × String)} :
    ∀ (cols : List (String × List Cell)) (T : List TypedColumn) (j : Nat)
      (hj : j < cols.length) (t : String),
      parse_columns a b c d force cols = Except.ok T →
      lookupForce force (cols.get ⟨j, hj⟩).1 = some t →
      ∃ (hT : j < T.length) (tag : String) (out : List Cell),
        parse_column t a b c d (cols.get ⟨j, hj⟩).2 = Except.ok (tag, out) ∧
        T.get ⟨j, hT⟩ = ⟨(cols.get ⟨j, hj⟩).1, tag, out⟩
  | [], T, j, hj, t, hok, hforce => absurd hj (by simp)
  | (n, vs) :: rest, T, j, hj, t, hok, hforce => by
    unfold parse_columns at hok
    cases hinf : infer_column_type vs with
    | error e =>
      rw [hinf] at hok
      exact absurd hok (by simp [bind, Except.bind])
    | ok t0 =>
      rw [hinf] at hok
      simp only [bind, Except.bind] at hok
      cases hpc : parse_column ((lookupForce force n).getD t0) a b c d vs with
      | error e =>
        rw [hpc] at hok
        exact absurd hok (by simp)
      | ok pr =>
        obtain ⟨tag, out⟩ := pr
        rw [hpc] at hok
        cases hrest : parse_columns a b c d force rest with
        | error e =>
          rw [hrest] at hok
          exact absurd hok (by simp)
        | ok rT =>
          rw [hrest] at hok
          simp only [pure, Except.pure, Except.ok.injEq] at hok
          subst hok
          cases j with
          | zero =>
            have hct : (lookupForce force n).getD t0 = t := by
              have hf0 : lookupForce force n = some t := hforce
              rw [hf0]
              rfl
            rw [hct] at hpc
            exact ⟨by simp, tag, out, hpc, rfl⟩
          | succ jp =>
            have hjp : jp < rest.length := by simpa using hj
            obtain ⟨hT, tag2, out2, h1, h2⟩ :=
              parse_columns_forced rest rT jp hjp t hrest hforce
            exact ⟨by simpa using hT, tag2, out2, h1, h2⟩

/-- C3: a forced type for a column always overrides inference: whenever
`parse_data` (with inference running eagerly on every column) returns a
table, a column whose name is in the override mapping is converted with
the forced type, whatever `infer_column_type` would have returned; in
particular a column of numeric-looking strings forced to `"categorical"`
comes out tagged `"categorical"` with its cells intact. -/
theorem force_override_wins :
    (∀ (cols : List (String × List Cell)) (a b c d : Bool)
      (force : List (String × String)) (T : List TypedColumn) (j : Nat)
      (hj : j < cols.length) (t : String),
      parse_data cols false a b c d force = Except.ok T →
      lookupForce force (cols.get ⟨j, hj⟩).1 = some t →
      ∃ (hT : j < T.length) (tag : String) (out : List Cell),
        parse_column t a b c d ((cols.get ⟨j, hj⟩).2.map replaceSentinel) =
          Except.ok (tag, out) ∧
        T.get ⟨j, hT⟩ = ⟨(cols.get ⟨j, hj⟩).1, tag, out⟩) ∧
    parse_data [("a", [Cell.str "1", Cell.str "2"])] false true true true true
        [("a", "categorical")] =
      Except.ok [⟨"a", "categorical", [Cell.str "1", Cell.str "2"]⟩] := by
  refine ⟨?_, rfl⟩
  intro cols a b c d force T j hj t hok hforce
  have hok' : parse_columns a b c d force
      (cols.map (fun p => (p.1, p.2.map replaceSentinel))) = Except.ok T := hok
  have hj' : j < (cols.map (fun p => (p.1, p.2.map replaceSentinel))).length := by
    simpa using hj
  have hforce' : lookupForce force
      ((cols.map (fun p => (p.1, p.2.map replaceSentinel))).get ⟨j, hj'⟩).1 = some t := by
    rw [List.get_map]
    exact hforce
  obtain ⟨hT, tag, out, h1, h2⟩ := parse_columns_forced _ T j hj' t hok' hforce'
  rw [List.get_map] at h1 h2
  exact ⟨hT, tag, out, h1, h2⟩

theorem force_override_wins_witness :
    ∃ (hT : 0 < ([⟨"a", "categorical", [Cell.str "5"]⟩] : List TypedColumn).length)
      (tag : String) (out : List Cell),
      parse_column "categorical" true true true true
        ([Cell.str "5"].map replaceSentinel) = Except.ok (tag, out) ∧
      ([⟨"a", "categorical", [Cell.str "5"]⟩] : List TypedColumn).get ⟨0, hT⟩ =
        ⟨"a", tag, out⟩ :=
  force_override_wins.1 [("a", [Cell.str "5"])] true true true true [("a", "categorical")]
    [⟨"a", "categorical", [Cell.str "5"]⟩] 0 (by decide) "categorical" rfl rfl

theorem pyStr_strnull {c : Cell} (h : isStrOrNull c = true) : pyStr c = c := by
  cases c with
  | null => rfl
  | str s => rfl
  | date y m d => exact absurd h (by simp [isStrOrNull])
  | num q => exact absurd h (by simp [isStrOrNull])

theorem infer_ok_strnull {vs : List Cell} {t : String}
    (h : infer_column_type vs = Except.ok t) : vs.all isStrOrNull = true := by
  unfold infer_column_type at h
  dsimp only at h
  by_cases hs : (vs.map replaceSentinel).all isStrOrNull = true
  · rw [List.all_eq_true]
    intro c hc
    rw [List.all_eq_true] at hs
    have := hs (replaceSentinel c) (List.mem_map_of_mem replaceSentinel hc)
    rwa [replaceSentinel_isStrOrNull] at this
  · rw [if_neg hs] at h
    exact absurd h (by simp)

theorem parse_column_cat_string {ct : String} {a b c d : Bool} {vs : List Cell}
    {tag : String} {out : List Cell}
    (hvs : vs.all isStrOrNull = true)
    (h : parse_column ct a b c d vs = Except.ok (tag, out))
    (htag : tag = "categorical" ∨ tag = "string") :
    out = vs := by
  unfold parse_column at h
  split at h
  · split at h
    · simp only [Except.ok.injEq, Prod.mk.injEq] at h
      rcases htag with ht | ht <;> (rw [← h.1] at ht; exact absurd ht (by decide))
    · simp only [Except.ok.injEq, Prod.mk.injEq] at h
      rcases htag with ht | ht <;> (rw [← h.1] at ht; exact absurd ht (by decide))
  · split at h
    · simp only [Except.ok.injEq, Prod.mk.injEq] at h
      rcases htag with ht | ht <;> (rw [← h.1] at ht; exact absurd ht (by decide))
    · split at h
      · simp only [Except.ok.injEq, Prod.mk.injEq] at h
        exact h.2.symm
      · simp only [Except.ok.injEq, Prod.mk.injEq] at h
        rw [← h.2]
        rw [List.all_eq_true] at hvs
        calc vs.map pyStr = vs.map id := List.map_congr_left (fun x hx => pyStr_strnull (hvs x hx))
          _ = vs := List.map_id vs

theorem parse_columns_idem {a b c d : Bool} {force : List (String × String)} :
    ∀ (cols : List (String × List Cell)) (T : List TypedColumn),
      parse_columns a b c d force cols = Except.ok T →
      (∀ p ∈ cols, p.2.map replaceSentinel = p.2) →
      (∀ col ∈ T, col.tag = "categorical" ∨ col.tag = "string") →
      T.map (fun col => (col.name, col.values.map replaceSentinel)) = cols
  | [], T, hok, _, _ => by
    simp only [parse_columns, Except.ok.injEq] at hok
    subst hok
    rfl
  | (n, vs) :: rest, T, hok, hsent, htags => by
    unfold parse_columns at hok
    cases hinf : infer_column_type vs with
    | error e =>
      rw [hinf] at hok
      exact absurd hok (by simp [bind, Except.bind])
    | ok t0 =>
      rw [hinf] at hok
      simp only [bind, Except.bind] at hok
      cases hpc : parse_column ((lookupForce force n).getD t0) a b c d vs with
      | error e =>
        rw [hpc] at hok
        exact absurd hok (by simp)
      | ok pr =>
        obtain ⟨tag, out⟩ := pr
        rw [hpc] at hok
        cases hrest : parse_columns a b c d force rest with
        | error e =>
          rw [hrest] at hok
          exact absurd hok (by simp)
        | ok rT =>
          rw [hrest] at hok
          simp only [pure, Except.pure, Except.ok.injEq] at hok
          subst hok
          have hvs : vs.all isStrOrNull = true := infer_ok_strnull hinf
          have hsent_vs : vs.map replaceSentinel = vs :=
            hsent (n, vs) (List.mem_cons_self _ _)
          have htag0 : tag = "categorical" ∨ tag = "string" :=
            htags ⟨n, tag, out⟩ (List.mem_cons_self _ _)
          have hout : out = vs := parse_column_cat_string hvs hpc htag0
          have ih := parse_columns_idem rest rT hrest
            (fun p hp => hsent p (List.mem_cons_of_mem _ hp))
            (fun col hc => htags col (List.mem_cons_of_mem _ hc))
          simp only [List.map_cons, ih]
          rw [hout, hsent_vs]

/-- C7 counterexample: `parse_data` on the one-column dataset
`[("a", ["100"])]` (no overrides) yields a numeric column holding the
number 100; feeding that typed column back into `parse_data` with the
same (empty) override mapping does not return the same table — it
raises (`AttributeError` from the `.str` accessor in the eagerly-run
`infer_column_type`, modelled as `Except.error`), so normalize applied
twice differs from normalize applied once. -/
theorem normalize_not_idempotent :
    parse_data [("a", [Cell.str "100"])] false true true true true [] =
      Except.ok [⟨"a", "numeric", [Cell.num 100]⟩] ∧
    parse_data [("a", [Cell.num 100])] false true true true true [] =
      Except.error () := ⟨rfl, rfl⟩

/-- C7 (amended): `normalize` is idempotent under an unchanged override
mapping *on tables all of whose columns come out categorical- or
text-typed*: re-running `parse_data` on the produced columns returns the
same table.  (For a table with a date- or numeric-typed column the
second application instead fails — the numeric/date cells make the
eagerly-run `infer_column_type` raise; see the counterexample
`normalize_not_idempotent`, which forces this restriction.) -/
theorem normalize_idempotent_cat_string
    (cols : List (String × List Cell)) (a b c d : Bool)
    (force : List (String × String)) (T : List TypedColumn)
    (hok : parse_data cols false a b c d force = Except.ok T)
    (htags : ∀ col ∈ T, col.tag = "categorical" ∨ col.tag = "string") :
    parse_data (T.map (fun col => (col.name, col.values))) false a b c d force =
      Except.ok T := by
  have hok' : parse_columns a b c d force
      (cols.map (fun p => (p.1, p.2.map replaceSentinel))) = Except.ok T := hok
  have hsent : ∀ p ∈ cols.map (fun p => (p.1, p.2.map replaceSentinel)),
      p.2.map replaceSentinel = p.2 := by
    intro p hp
    rw [List.mem_map] at hp
    obtain ⟨q, hq, rfl⟩ := hp
    rw [List.map_map]
    exact List.map_congr_left (fun x hx => by
      simp [Function.comp, replaceSentinel_idem])
  have key : T.map (fun col => (col.name, col.values.map replaceSentinel)) =
      cols.map (fun p => (p.1, p.2.map replaceSentinel)) :=
    parse_columns_idem _ T hok' hsent htags
  show parse_columns a b c d force
      ((T.map (fun col => (col.name, col.values))).map
        (fun p => (p.1, p.2.map replaceSentinel))) = Except.ok T
  rw [List.map_map]
  have hfuse : T.map ((fun p => ((p.1 : String), (p.2 : List Cell).map replaceSentinel)) ∘
      (fun col => (col.name, col.values))) =
      T.map (fun col => (col.name, col.values.map replaceSentinel)) := rfl
  rw [hfuse, key]
  exact hok'

theorem normalize_idempotent_cat_string_witness :
    parse_data (([⟨"x", "categorical", [Cell.str "u"]⟩] : List TypedColumn).map
        (fun col => (col.name, col.values))) false true true true true [] =
      Except.ok [⟨"x", "categorical", [Cell.str "u"]⟩] :=
  normalize_idempotent_cat_string [("x", [Cell.str "u"])] true true true true []
    [⟨"x", "categorical", [Cell.str "u"]⟩] rfl
    (by
      intro col hc
      rw [List.mem_singleton] at hc
      subst hc
      exact Or.inl rfl)
